import Mathlib

set_option maxRecDepth 40000

/-!
Verification of the `icetex` petition-classification pipeline.

Shallow embedding of the Python sources:
  * `src/utils/openai_classifier.py` — `ICETEXClassifier.classify`,
    `_summarize_large_text`, `_split_text_into_chunks`, `_summarize_chunk`;
  * `src/utils/pdf_extractor.py` — `PDFExtractor.extract_text`,
    `_extract_with_pdfplumber`, `extract_from_bytes`;
  * `src/utils/knowledge_base.py` — `ICETEXKnowledgeBase.is_available`,
    `get_reference_context`, `upload_dependencies_from_bytes`.

Modelling conventions:
  * Python strings are `List Char`; `str.strip()` is `pyStrip`,
    `str.split` on a separator is modelled directly, slicing `s[:n]` is
    `List.take`.
  * External effects (the OpenAI chat-completion calls, the OCR engine,
    the pdfplumber page extraction, MD5 hashing, the system clock) are
    parameters of the embedded functions.  A Python call that can raise
    is a parameter returning an `Option`/outcome type; the `none`/error
    constructor is the call raising, and the surrounding Python
    `try/except` logic is translated explicitly.  Hence each embedded
    function is total: a Python exception escaping the translated code
    would show up as a missing case, not as a hidden axiom.
  * Functions whose Python version issues network calls additionally
    return the number of external API (or OCR / text-extraction) calls
    issued, so that "no external call is made" claims are statements
    about that counter.
-/

/-! ### Python string primitives -/

/-- The characters `str.strip()` removes: Python considers
`' '`, `'\t'`, `'\n'`, `'\r'`, `'\x0b'`, `'\x0c'` whitespace. -/
def isPySpace (c : Char) : Bool :=
  c = ' ' || c = '\t' || c = '\n' || c = '\r' || c = '\x0b' || c = '\x0c'

/-- Python `str.lstrip()`. -/
def pyLStrip (l : List Char) : List Char := l.dropWhile isPySpace

/-- Python `str.rstrip()`. -/
def pyRStrip (l : List Char) : List Char := (l.reverse.dropWhile isPySpace).reverse

/-- Python `str.strip()`. -/
def pyStrip (l : List Char) : List Char := pyRStrip (pyLStrip l)

/-- The paragraph separator `"\n\n"` used by
`_split_text_into_chunks` and by `"\n\n".join(...)`. -/
def nnSep : List Char := ['\n', '\n']

/-- Python `text.split('\n\n')`: scan left to right, cut at every
(non-overlapping) occurrence of the two-character separator. -/
def splitNN : List Char → List (List Char)
  | [] => [[]]
  | '\n' :: '\n' :: rest => [] :: splitNN rest
  | c :: rest => (splitNN rest).modifyHead (fun t => c :: t)

/-! ### `_split_text_into_chunks` (openai_classifier.py lines 207-226) -/

/-- The `for paragraph in paragraphs` loop of `_split_text_into_chunks`:
state is the accumulated `chunks` list and the `current_chunk` string.
A paragraph is appended to `current_chunk` (followed by `"\n\n"`) when it
fits; otherwise the current chunk is flushed (`.strip()`-ed) — but only
if non-empty — and the paragraph starts a fresh chunk. -/
def splitLoop (maxCS : Nat) : List (List Char) → List (List Char) → List Char → List (List Char)
  | [], chunks, cur => if cur = [] then chunks else chunks ++ [pyStrip cur]
  | p :: ps, chunks, cur =>
      if cur.length + p.length ≤ maxCS then
        splitLoop maxCS ps chunks (cur ++ (p ++ nnSep))
      else if cur = [] then
        splitLoop maxCS ps chunks (p ++ nnSep)
      else
        splitLoop maxCS ps (chunks ++ [pyStrip cur]) (p ++ nnSep)

/-- `ICETEXClassifier._split_text_into_chunks(text, max_chunk_size)`. -/
def split_text_into_chunks (maxCS : Nat) (text : List Char) : List (List Char) :=
  splitLoop maxCS (splitNN text) [] []

/-- The raw (pre-`strip`) content of a chunk built from the paragraph
group `g`: each paragraph followed by `"\n\n"`. -/
def joinNN (g : List (List Char)) : List Char := (g.map (fun p => p ++ nnSep)).flatten

/-- The final text of a chunk built from the paragraph group `g`. -/
def chunkOf (g : List (List Char)) : List Char := pyStrip (joinNN g)

/-! ### `_summarize_chunk` and `_summarize_large_text`
(openai_classifier.py lines 176-250) -/

/-- `ICETEXClassifier._summarize_chunk(chunk)`.  The summarization
chat-completion call is the oracle `sum`; `none` models the call
raising, in which case the `except` clause returns the first 1000
characters of the chunk plus `"..."`.  On success the response content
is `.strip()`-ed.  The second component counts API calls issued (one
per invocation — the call is issued even when it raises). -/
def summarize_chunk (sum : List Char → Option (List Char)) (chunk : List Char) :
    List Char × Nat :=
  match sum chunk with
  | some s => (pyStrip s, 1)
  | none => (chunk.take 1000 ++ "...".data, 1)

/-- `ICETEXClassifier._summarize_large_text(text)`.  Splits into
15000-character chunks; a single chunk is summarized directly; several
chunks are summarized individually, joined with `"\n\n"`, and the join
is summarized once more if it still exceeds 20000 characters.
`_summarize_chunk` catches every exception internally, and
`_split_text_into_chunks` is pure, so the enclosing `try/except` of the
Python code (whole-text truncation fallback) is unreachable and has no
counterpart here.  Second component counts summarization API calls. -/
def summarize_large_text (sum : List Char → Option (List Char)) (text : List Char) :
    List Char × Nat :=
  let chunks := split_text_into_chunks 15000 text
  if chunks.length = 1 then
    summarize_chunk sum chunks.headI
  else
    let summarized := chunks.map (fun c => (summarize_chunk sum c).1)
    let combined := List.intercalate nnSep summarized
    if 20000 < combined.length then
      ((summarize_chunk sum combined).1, chunks.length + 1)
    else
      (combined, chunks.length)

/-! ### Knowledge base (knowledge_base.py) -/

/-- The metadata dictionary `dependencies_info` as written by a
successful upload (knowledge_base.py lines 171-178).  Timestamps are
opaque `Nat` values supplied by the caller-side clock. -/
structure DepsInfo where
  file_hash : List Char
  filename : List Char
  upload_date : Nat
  description : List Char
  text_length : Nat
  last_processed : Nat
deriving DecidableEq

/-- In-memory state of `ICETEXKnowledgeBase`: the `dependencies_info`
dictionary (`none` models the empty dict `\x7b\x7d`, so that
`.get('file_hash')` is `None`) and the `reference_text` string.
File persistence (`_save_knowledge_base`) is out of scope. -/
structure KBState where
  dependencies_info : Option DepsInfo
  reference_text : List Char
deriving DecidableEq

/-- `self.dependencies_info.get('file_hash')`. -/
def infoFileHash (kb : KBState) : Option (List Char) :=
  kb.dependencies_info.map DepsInfo.file_hash

/-- `ICETEXKnowledgeBase.is_available` (lines 255-257):
`bool(self.reference_text and len(self.reference_text.strip()) > 100)`. -/
def is_available (kb : KBState) : Bool :=
  decide (kb.reference_text ≠ [] ∧ 100 < (pyStrip kb.reference_text).length)

/-- Python `truncated.rfind('.')`: index of the last occurrence of
`'.'`, `none` for Python -1. -/
def rfindDot (l : List Char) : Option Nat :=
  match l.reverse.findIdx? (fun c => c = '.') with
  | some j => some (l.length - 1 - j)
  | none => none

/-- `ICETEXKnowledgeBase.get_reference_context` (lines 197-220),
modelled at the default `max_length = 8000` used by `classify` (for
which the float threshold `max_length * 0.8` is exactly `6400.0`):
text over 8000 characters is truncated at the last sentence boundary
when that boundary is in the last 20% of the budget, otherwise
hard-truncated with an appended ellipsis. -/
def get_reference_context (kb : KBState) : List Char :=
  if kb.reference_text = [] then []
  else if 8000 < kb.reference_text.length then
    let truncated := kb.reference_text.take 8000
    match rfindDot truncated with
    | some i => if 6400 < i then truncated.take (i + 1) else truncated ++ "...".data
    | none => truncated ++ "...".data
  else kb.reference_text

/-- Result dictionary of `upload_dependencies_from_bytes`:
`alreadyUploaded` is the `success: True` / "Document already uploaded
and processed" dictionary, `uploaded` the `success: True` / "uploaded
and processed successfully" one, `insufficientText` the
`success: False` / "Could not extract sufficient text" one.  Nothing in
the translated body can raise, so the outer `except` clause has no
constructor. -/
inductive UploadResult where
  | alreadyUploaded (file_hash : List Char) (text_length : Nat)
  | uploaded (file_hash : List Char) (text_length : Nat) (filename : List Char)
  | insufficientText
deriving DecidableEq

/-- The `success` field of the returned dictionary. -/
def UploadResult.isSuccess : UploadResult → Bool
  | UploadResult.alreadyUploaded _ _ => true
  | UploadResult.uploaded _ _ _ => true
  | UploadResult.insufficientText => false

/-- `ICETEXKnowledgeBase.upload_dependencies_from_bytes` (lines
133-195).  `md5` is the hash function, `extract` the
`PDFExtractor.extract_from_bytes` collaborator, `now` the clock.
Returns the result dictionary, the new knowledge-base state, and the
number of text-extraction calls performed. -/
def upload_dependencies_from_bytes (md5 : List Nat → List Char)
    (extract : List Nat → List Char) (now : Nat) (kb : KBState)
    (pdf_bytes : List Nat) (filename description : List Char) :
    UploadResult × KBState × Nat :=
  let file_hash := md5 pdf_bytes
  if infoFileHash kb = some file_hash ∧ kb.reference_text ≠ [] then
    (UploadResult.alreadyUploaded file_hash kb.reference_text.length, kb, 0)
  else
    let extracted := extract pdf_bytes
    if extracted = [] ∨ (pyStrip extracted).length < 100 then
      (UploadResult.insufficientText, kb, 1)
    else
      (UploadResult.uploaded file_hash extracted.length filename,
       { dependencies_info :=
           some ⟨file_hash, filename, now, description, extracted.length, now⟩,
         reference_text := extracted }, 1)

/-! ### The classification engine (openai_classifier.py lines 84-156) -/

/-- `ICETEXClassifier.SYSTEM_PROMPT`, verbatim. -/
def systemPromptStr : List Char :=
  "Eres un sistema de clasificación de IA para peticiones de ICETEX.  \nTu única función es leer el texto de una petición (en español) y decidir qué dependencia de ICETEX debe manejarla, basándote en el \"Manual de Funciones y Competencias Laborales ICETEX V2\".\n\n### FORMATO DE SALIDA (siempre devolver JSON válido)\n\x7b\n  \"dependencia\": \"\",\n  \"confianza\": \"\",\n  \"motivo\": \"\",\n  \"palabras_clave\": []\n\x7d\n\n### CONTEXTO Y REGLAS DE DECISIÓN\n1. Si la petición menciona **fondos, convenios, condonación, becas, crédito condonable**, → elegir \"Vicepresidencia de Fondos en Administración\".\n2. Si menciona **demanda, sanción, resolución, fallo, normatividad, derecho, apelación, abogado**, → \"Oficina Asesora Jurídica\".\n3. Si menciona **riesgos, cumplimiento, control interno, auditoría, transparencia**, → \"Oficina de Riesgos\" o \"Oficina de Control Interno\" (según el enfoque).\n4. Si menciona **planeación, estrategia, indicadores, metas institucionales**, → \"Oficina Asesora de Planeación\".\n5. Si menciona **tecnología, plataforma, sistema, errores técnicos, mantenimiento**, → \"Vicepresidencia de Operaciones y Tecnología\".\n6. Si menciona **comunicación, prensa, medios, campañas**, → \"Oficina Asesora de Comunicaciones\".\n7. Si menciona **cobro, mora, pagos, deudas, cartera**, → \"Vicepresidencia de Crédito y Cobranza\".\n8. Si menciona **presupuesto, finanzas, tesorería, contabilidad**, → \"Vicepresidencia Financiera\".\n9. Si menciona **internacional, becas en el exterior, cooperación**, → \"Oficina de Relaciones Internacionales\".\n10. Si menciona **comercial, mercadeo, usuarios, aliados estratégicos, atención al cliente**, → \"Oficina Comercial y de Mercadeo\".\n11. Si menciona **personal, contratación, archivos, secretaría**, → \"Secretaría General\".\n12. Si es ambiguo, selecciona la dependencia más probable y reduce la confianza en consecuencia.\n\n### EJEMPLOS\nEntrada: \"Solicito la condonación del crédito educativo otorgado mediante el Fondo Bicentenario del Distrito de Cartagena.\"\nSalida:\n\x7b\n  \"dependencia\": \"Vicepresidencia de Fondos en Administración\",\n  \"confianza\": \"96%\",\n  \"motivo\": \"La petición solicita la condonación de un crédito de un fondo administrado, el cual es manejado por la Vicepresidencia de Fondos en Administración.\",\n  \"palabras_clave\": [\"condonación\", \"fondo\", \"crédito educativo\"]\n\x7d\n\nIMPORTANTE: TODAS las respuestas deben estar en español. El campo \"motivo\" debe explicar en español por qué se asignó esta dependencia.".data

/-- Fixed text before the reference context block appended to the
system prompt (line 120). -/
def refBlockPre : List Char :=
  "\n\n### DOCUMENTO DE REFERENCIA ADICIONAL\nTienes acceso al documento oficial de dependencias de ICETEX con información detallada:\n\n".data

/-- Fixed text after the reference context block (line 120). -/
def refBlockSuf : List Char :=
  "\n\nUsa esta información detallada para hacer clasificaciones más precisas. Todas las respuestas deben estar en español.".data

/-- System-prompt composition in `classify` (lines 113-120): the fixed
prompt, plus — when a knowledge base was injected, reports
`is_available()`, and serves a non-empty reference context — the
reference block. -/
def buildSystemPrompt : Option KBState → List Char
  | none => systemPromptStr
  | some kb =>
    if is_available kb then
      let rc := get_reference_context kb
      if rc = [] then systemPromptStr
      else systemPromptStr ++ refBlockPre ++ rc ++ refBlockSuf
    else systemPromptStr

/-- The model response as seen after `json.loads`: a dictionary in
which each of the four expected keys may be absent.  (Other keys and
value shapes do not influence the translated control flow.) -/
structure ParsedResponse where
  dependencia : Option (List Char)
  confianza : Option (List Char)
  motivo : Option (List Char)
  palabras_clave : Option (List (List Char))
deriving DecidableEq

/-- Behavior of the classification chat-completion call plus the
`json.loads` parse: success with a parsed dictionary, a
`json.JSONDecodeError` (unparseable payload), or any other exception
raised by the call (network, auth, rate limit, ...). -/
inductive ApiOutcome where
  | success (p : ParsedResponse)
  | badJson (msg : List Char)
  | apiError (msg : List Char)
deriving DecidableEq

/-- The dictionary returned by `classify`: all four fields are always
present (that is what this record type expresses). -/
structure ClassifyResult where
  dependencia : List Char
  confianza : List Char
  motivo : List Char
  palabras_clave : List (List Char)
deriving DecidableEq

def naStr : List Char := "N/A".data

def errorStr : List Char := "Error".data

def zeroPct : List Char := "0%".data

/-- The short-input sentinel (lines 99-104). -/
def shortErrorResult : ClassifyResult :=
  ⟨errorStr, zeroPct,
   "The petition text is too short or empty to classify.".data, []⟩

def jsonErrMotivoPre : List Char :=
  "Failed to parse OpenAI response as JSON: ".data

def classErrMotivoPre : List Char := "Classification error: ".data

/-- The user-message wrapper of line 127. -/
def userMsgPre : List Char := "Classify this petition:\n\n".data

/-- Lines 122-156 of `classify`: issue the completion call on the
(possibly summarized) text `pre` and turn its outcome into the returned
dictionary — field-defaulting the parsed response, or building the
`Error` sentinel in either `except` clause.  Total: every completion
outcome, including both exception classes, maps to a
`ClassifyResult`. -/
def classifyCall (compl : List Char → List Char → ApiOutcome)
    (kb : Option KBState) (pre : List Char × Nat) : ClassifyResult × Nat :=
  match compl (buildSystemPrompt kb) (userMsgPre ++ pre.1) with
  | ApiOutcome.success p =>
      (⟨p.dependencia.getD naStr, p.confianza.getD naStr, p.motivo.getD naStr,
        p.palabras_clave.getD []⟩, pre.2 + 1)
  | ApiOutcome.badJson m =>
      (⟨errorStr, zeroPct, jsonErrMotivoPre ++ m, []⟩, pre.2 + 1)
  | ApiOutcome.apiError m =>
      (⟨errorStr, zeroPct, classErrMotivoPre ++ m, []⟩, pre.2 + 1)

/-- `ICETEXClassifier.classify(petition_text)` (lines 84-156).  `compl`
is the chat-completion call (given the system prompt and the user
message), `sum` the summarization oracle used by
`_summarize_large_text`, `kb` the injected knowledge base (`none` when
absent).  The guard `not petition_text or len(petition_text.strip()) < 10`
collapses to the single stripped-length test, since an empty (or
`None`, modelled as empty) text strips to length 0.  Oversized text —
estimated tokens `len(text) // 4` above 25000 — is summarized first.
The second component counts external API calls issued (summarization
calls plus the classification call). -/
def classify (compl : List Char → List Char → ApiOutcome)
    (sum : List Char → Option (List Char))
    (kb : Option KBState) (text : List Char) : ClassifyResult × Nat :=
  if (pyStrip text).length < 10 then (shortErrorResult, 0)
  else
    classifyCall compl kb
      (if 25000 < text.length / 4 then summarize_large_text sum text else (text, 0))

/-! ### PDF extraction (pdf_extractor.py) -/

/-- Outcome of `page.extract_text()` on one page: a string, `None`, or
an exception raised by the extraction library. -/
inductive PageOutcome where
  | text (t : List Char)
  | noText
  | raise
deriving DecidableEq

/-- Outcome of `pdfplumber.open(pdf_path)` followed by the page walk:
either the per-page outcomes, or the open call itself raising. -/
inductive PlumberOutcome where
  | pages (ps : List PageOutcome)
  | openRaise
deriving DecidableEq

/-- Outcome of `self._extract_with_ocr(pdf_path)` as seen by
`extract_text`: the OCR text, or the (re-wrapped) exception message it
raises — e.g. when the OCR engine is not installed. -/
inductive OcrOutcome where
  | ok (t : List Char)
  | raise (msg : List Char)
deriving DecidableEq

/-- The `for page in pdf.pages` loop of `_extract_with_pdfplumber`
(lines 60-64): a page's text is appended (with a newline) when truthy —
`None` and the empty string are skipped — and an exception raised on a
page aborts the loop, the enclosing `except` returning the text
accumulated so far. -/
def extractPagesLoop : List PageOutcome → List Char → List Char
  | [], acc => acc
  | PageOutcome.text t :: ps, acc =>
      if t = [] then extractPagesLoop ps acc
      else extractPagesLoop ps (acc ++ t ++ ['\n'])
  | PageOutcome.noText :: ps, acc => extractPagesLoop ps acc
  | PageOutcome.raise :: _, acc => acc

/-- `PDFExtractor._extract_with_pdfplumber` (lines 56-69): empty string
when `pdfplumber.open` raises. -/
def extract_with_pdfplumber : PlumberOutcome → List Char
  | PlumberOutcome.openRaise => []
  | PlumberOutcome.pages ps => extractPagesLoop ps []

/-- The fixed Spanish placeholder of pdf_extractor.py line 50,
verbatim (including the mojibake in the source). -/
def ocrPlaceholder : List Char :=
  "OCR no disponible. Este PDF parece ser una imagen escaneada. Por favor, use un PDF con texto extraÃ­ble o contacte al administrador para configurar OCR.".data

/-- Start of the bracketed note of line 52. -/
def ocrNotePre : List Char := "\n\n[Nota: OCR no disponible - ".data

/-- `PDFExtractor.extract_text(pdf_path)` (lines 24-54): digital
text-layer pass first; OCR attempted exactly when the stripped digital
text is under 100 characters; on OCR success the longer (unstripped)
candidate wins; on OCR failure either the fixed placeholder (no digital
text at all) or the digital text plus a bracketed note; the returned
string is always `.strip()`-ed.  The second component counts OCR
attempts.  `ocrBranch` is the `try/except` block of lines 42-52 (the
stripped-digital-text-under-100 branch), given the digital text. -/
def ocrBranch (digText : List Char) : OcrOutcome → List Char × Nat
  | OcrOutcome.ok t =>
      (pyStrip (if digText.length < t.length then t else digText), 1)
  | OcrOutcome.raise e =>
      if (pyStrip digText).length = 0 then
        (pyStrip ocrPlaceholder, 1)
      else
        (pyStrip (digText ++ (ocrNotePre ++ e ++ [']'])), 1)

def extract_text (dig : PlumberOutcome) (ocr : OcrOutcome) : List Char × Nat :=
  if (pyStrip (extract_with_pdfplumber dig)).length < 100 then
    ocrBranch (extract_with_pdfplumber dig) ocr
  else (pyStrip (extract_with_pdfplumber dig), 0)

/-- `PDFExtractor.extract_from_bytes(pdf_bytes)` (lines 103-125):
writes the bytes to a temporary file, runs `extract_text` on it, and
unconditionally removes the file.  Its outcome is therefore
`extract_text` applied to whatever the pdfplumber and OCR collaborators
do on a file with those bytes — here passed as the two outcome
parameters. -/
def extract_from_bytes (dig : PlumberOutcome) (ocr : OcrOutcome) : List Char × Nat :=
  extract_text dig ocr

/-- A chunk is acceptable for paragraph list `allP`: within the size
budget, or the (stripped) form of a single oversized paragraph. -/
def chunkOK (maxCS : Nat) (allP : List (List Char)) (c : List Char) : Prop :=
  c.length ≤ maxCS ∨ ∃ p, p ∈ allP ∧ maxCS < p.length ∧ c = pyStrip (p ++ nnSep)

/-- The loop-state invariant of the chunking loop: the pending chunk is
within budget (+2 for its trailing separator) or is a single oversized
paragraph of the input. -/
def curInv (maxCS : Nat) (allP : List (List Char)) (curG : List (List Char)) : Prop :=
  (joinNN curG).length ≤ maxCS + 2 ∨
    ∃ p, curG = [p] ∧ maxCS < p.length ∧ p ∈ allP

/-! ### Helper lemmas about `dropWhile` and the strip functions -/

theorem dropWhile_dropWhile (p : Char → Bool) (l : List Char) :
    (l.dropWhile p).dropWhile p = l.dropWhile p := by
  induction l with
  | nil => rfl
  | cons a t ih =>
    by_cases h : p a
    · simp [List.dropWhile_cons, h, ih]
    · simp [List.dropWhile_cons, h]

theorem dropWhile_append_of_ne (p : Char → Bool) (a b : List Char)
    (h : a.dropWhile p ≠ []) :
    (a ++ b).dropWhile p = a.dropWhile p ++ b := by
  induction a with
  | nil => exact absurd rfl h
  | cons x t ih =>
    by_cases hx : p x
    · simp only [List.dropWhile_cons, hx, if_true] at h ⊢
      simp only [List.cons_append, List.dropWhile_cons, hx, if_true]
      exact ih h
    · simp [List.dropWhile_cons, hx]

theorem dropWhile_append_of_eq (p : Char → Bool) (a b : List Char)
    (h : a.dropWhile p = []) :
    (a ++ b).dropWhile p = b.dropWhile p := by
  induction a with
  | nil => rfl
  | cons x t ih =>
    by_cases hx : p x
    · simp only [List.dropWhile_cons, hx, if_true] at h
      simp only [List.cons_append, List.dropWhile_cons, hx, if_true]
      exact ih h
    · simp [List.dropWhile_cons, hx] at h

theorem length_pyLStrip_le (l : List Char) : (pyLStrip l).length ≤ l.length :=
  (List.dropWhile_suffix isPySpace).length_le

theorem length_pyRStrip_le (l : List Char) : (pyRStrip l).length ≤ l.length := by
  unfold pyRStrip
  calc (l.reverse.dropWhile isPySpace).reverse.length
      = (l.reverse.dropWhile isPySpace).length := List.length_reverse _
    _ ≤ l.reverse.length := (List.dropWhile_suffix isPySpace).length_le
    _ = l.length := List.length_reverse l

theorem length_pyStrip_le (l : List Char) : (pyStrip l).length ≤ l.length :=
  le_trans (length_pyRStrip_le (pyLStrip l)) (length_pyLStrip_le l)

theorem pyStrip_nil : pyStrip [] = [] := rfl

/-- Stripping `X ++ "\n\n"` yields something no longer than `X`:
the two trailing newline characters always go. -/
theorem length_pyStrip_append_nn (X : List Char) :
    (pyStrip (X ++ nnSep)).length ≤ X.length := by
  by_cases h : X.dropWhile isPySpace = []
  · unfold pyStrip pyLStrip
    rw [dropWhile_append_of_eq _ _ _ h]
    have : nnSep.dropWhile isPySpace = [] := by decide
    rw [this]
    simp [pyRStrip]
  · unfold pyStrip pyLStrip
    rw [dropWhile_append_of_ne _ _ _ h]
    unfold pyRStrip
    rw [List.reverse_append]
    have hrev : nnSep.reverse = '\n' :: '\n' :: [] := by decide
    rw [hrev]
    have hsp : isPySpace '\n' = true := by decide
    simp only [List.cons_append, List.dropWhile_cons, hsp, if_true, List.nil_append]
    calc ((X.dropWhile isPySpace).reverse.dropWhile isPySpace).reverse.length
        = ((X.dropWhile isPySpace).reverse.dropWhile isPySpace).length :=
          List.length_reverse _
      _ ≤ (X.dropWhile isPySpace).reverse.length :=
          (List.dropWhile_suffix isPySpace).length_le
      _ = (X.dropWhile isPySpace).length := List.length_reverse _
      _ ≤ X.length := (List.dropWhile_suffix isPySpace).length_le

theorem pyRStrip_isPrefix (l : List Char) : pyRStrip l <+: l := by
  rcases List.dropWhile_suffix (l := l.reverse) isPySpace with ⟨t, ht⟩
  refine ⟨t.reverse, ?_⟩
  have : (t ++ l.reverse.dropWhile isPySpace).reverse = l.reverse.reverse := by
    rw [ht]
  rw [List.reverse_append, List.reverse_reverse] at this
  simpa [pyRStrip] using this

theorem pyLStrip_idem (l : List Char) : pyLStrip (pyLStrip l) = pyLStrip l :=
  dropWhile_dropWhile isPySpace l

theorem pyRStrip_idem (l : List Char) : pyRStrip (pyRStrip l) = pyRStrip l := by
  unfold pyRStrip
  rw [List.reverse_reverse, dropWhile_dropWhile]

theorem pyLStrip_head_not (l : List Char) (a : Char) (t : List Char)
    (h : pyLStrip l = a :: t) : isPySpace a = false := by
  by_contra hcon
  have ha : isPySpace a = true := by
    cases hval : isPySpace a
    · exact absurd hval hcon
    · rfl
  have h2 := pyLStrip_idem l
  rw [h] at h2
  unfold pyLStrip at h2
  rw [List.dropWhile_cons, ha] at h2
  simp only [if_true] at h2
  have := congrArg List.length h2
  have hle := (List.dropWhile_suffix (l := t) isPySpace).length_le
  simp at this
  omega

theorem pyLStrip_pyRStrip_pyLStrip (l : List Char) :
    pyLStrip (pyRStrip (pyLStrip l)) = pyRStrip (pyLStrip l) := by
  cases hm : pyLStrip l with
  | nil => simp [pyRStrip, pyLStrip]
  | cons a t =>
    have ha : isPySpace a = false := pyLStrip_head_not l a t hm
    cases hr : pyRStrip (a :: t) with
    | nil => simp [pyLStrip]
    | cons b u =>
      have hpre : pyRStrip (a :: t) <+: a :: t := pyRStrip_isPrefix (a :: t)
      rw [hr] at hpre
      rcases hpre with ⟨s, hs⟩
      have hb : b = a := by
        have := hs
        simp only [List.cons_append] at this
        exact (List.cons.injEq .. ▸ this).1
      subst hb
      unfold pyLStrip
      rw [List.dropWhile_cons, ha]
      simp

/-- `str.strip()` is idempotent. -/
theorem pyStrip_idem (l : List Char) : pyStrip (pyStrip l) = pyStrip l := by
  unfold pyStrip
  rw [pyLStrip_pyRStrip_pyLStrip, pyRStrip_idem]

/-! ### Structure lemmas for the chunking loop -/

theorem joinNN_append (a b : List (List Char)) :
    joinNN (a ++ b) = joinNN a ++ joinNN b := by
  unfold joinNN
  rw [List.map_append, List.flatten_append]

theorem joinNN_singleton (p : List Char) : joinNN [p] = p ++ nnSep := by
  simp [joinNN]

theorem joinNN_ne_nil (g : List (List Char)) (h : g ≠ []) : joinNN g ≠ [] := by
  cases g with
  | nil => exact absurd rfl h
  | cons p gs =>
    unfold joinNN
    simp only [List.map_cons, List.flatten_cons]
    intro hcon
    have := congrArg List.length hcon
    simp [nnSep] at this

theorem joinNN_ends_nn (g : List (List Char)) (h : g ≠ []) :
    ∃ X, joinNN g = X ++ nnSep := by
  induction g with
  | nil => exact absurd rfl h
  | cons p gs ih =>
    cases gs with
    | nil => exact ⟨p, joinNN_singleton p⟩
    | cons q gs' =>
      rcases ih (by simp) with ⟨X, hX⟩
      refine ⟨p ++ nnSep ++ X, ?_⟩
      have : joinNN (p :: q :: gs') = joinNN ([p] ++ (q :: gs')) := rfl
      rw [this, joinNN_append, joinNN_singleton, hX]
      simp [List.append_assoc]

theorem length_joinNN_singleton (p : List Char) :
    (joinNN [p]).length = p.length + 2 := by
  rw [joinNN_singleton]
  simp [nnSep]

theorem length_joinNN_snoc (g : List (List Char)) (p : List Char) :
    (joinNN (g ++ [p])).length = (joinNN g).length + p.length + 2 := by
  rw [joinNN_append, joinNN_singleton]
  simp [nnSep]
  omega

/-- After flushing: `splitLoop` distributes over an already-emitted
chunk list. -/
theorem splitLoop_emitted (maxCS : Nat) (ps : List (List Char)) :
    ∀ (chunks chunks' : List (List Char)) (cur : List Char),
      splitLoop maxCS ps (chunks ++ chunks') cur =
        chunks ++ splitLoop maxCS ps chunks' cur := by
  induction ps with
  | nil =>
    intro chunks chunks' cur
    by_cases h : cur = []
    · simp [splitLoop, h]
    · simp [splitLoop, h]
  | cons p ps ih =>
    intro chunks chunks' cur
    by_cases h1 : cur.length + p.length ≤ maxCS
    · simp only [splitLoop, if_pos h1]
      exact ih ..
    · by_cases h2 : cur = []
      · simp only [splitLoop, if_neg h1, if_pos h2]
        exact ih ..
      · simp only [splitLoop, if_neg h1, if_neg h2, List.append_assoc]
        exact ih ..

/-- Partition property of the chunking loop: starting from a non-empty
current paragraph group `curG`, the loop emits exactly the chunks of a
partition of `curG ++ ps` into consecutive non-empty groups. -/
theorem splitLoop_partition (maxCS : Nat) :
    ∀ (ps : List (List Char)) (curG : List (List Char)), curG ≠ [] →
      ∃ groups : List (List (List Char)),
        groups ≠ [] ∧ (∀ g ∈ groups, g ≠ []) ∧
        groups.flatten = curG ++ ps ∧
        splitLoop maxCS ps [] (joinNN curG) = groups.map chunkOf := by
  intro ps
  induction ps with
  | nil =>
    intro curG hcur
    refine ⟨[curG], by simp, by simpa using hcur, by simp, ?_⟩
    have hne : joinNN curG ≠ [] := joinNN_ne_nil curG hcur
    simp [splitLoop, hne, chunkOf]
  | cons p ps ih =>
    intro curG hcur
    by_cases h1 : (joinNN curG).length + p.length ≤ maxCS
    · rcases ih (curG ++ [p]) (by simp) with ⟨groups, hne, hall, hflat, heq⟩
      refine ⟨groups, hne, hall, ?_, ?_⟩
      · rw [hflat, List.append_assoc]
        simp
      · simp only [splitLoop, if_pos h1]
        rw [show joinNN curG ++ (p ++ nnSep) = joinNN (curG ++ [p]) by
          rw [joinNN_append, joinNN_singleton]]
        exact heq
    · rcases ih [p] (by simp) with ⟨groups, hne, hall, hflat, heq⟩
      have hjne : joinNN curG ≠ [] := joinNN_ne_nil curG hcur
      refine ⟨curG :: groups, by simp, ?_, ?_, ?_⟩
      · intro g hg
        rcases List.mem_cons.1 hg with hg | hg
        · rw [hg]; exact hcur
        · exact hall g hg
      · simp only [List.flatten_cons, hflat]
        simp
      · simp only [splitLoop, if_neg h1, if_neg hjne, List.nil_append]
        have hch : [pyStrip (joinNN curG)] = [chunkOf curG] := rfl
        rw [hch]
        have hstep : splitLoop maxCS ps ([chunkOf curG] ++ []) (p ++ nnSep) =
            [chunkOf curG] ++ splitLoop maxCS ps [] (p ++ nnSep) :=
          splitLoop_emitted maxCS ps [chunkOf curG] [] (p ++ nnSep)
        simp only [List.append_nil] at hstep
        rw [hstep, ← joinNN_singleton, heq]
        simp

theorem emit_chunkOK (maxCS : Nat) (allP : List (List Char))
    (curG : List (List Char)) (hcur : curG ≠ [])
    (hinv : curInv maxCS allP curG) :
    chunkOK maxCS allP (chunkOf curG) := by
  rcases hinv with hlen | ⟨p, hg, hbig, hmem⟩
  · left
    rcases joinNN_ends_nn curG hcur with ⟨X, hX⟩
    have hXlen : X.length + 2 = (joinNN curG).length := by
      rw [hX]; simp [nnSep]
    unfold chunkOf
    rw [hX]
    have := length_pyStrip_append_nn X
    omega
  · right
    exact ⟨p, hmem, hbig, by rw [hg, chunkOf, joinNN_singleton]⟩

/-- Size property of the chunking loop: every emitted chunk is
`chunkOK`. -/
theorem splitLoop_sizes (maxCS : Nat) (allP : List (List Char)) :
    ∀ (ps : List (List Char)) (curG chunks : List (List Char)),
      (∀ p ∈ ps, p ∈ allP) → curG ≠ [] → curInv maxCS allP curG →
      (∀ c ∈ chunks, chunkOK maxCS allP c) →
      ∀ c ∈ splitLoop maxCS ps chunks (joinNN curG), chunkOK maxCS allP c := by
  intro ps
  induction ps with
  | nil =>
    intro curG chunks _ hcur hinv hchunks c hc
    have hne : joinNN curG ≠ [] := joinNN_ne_nil curG hcur
    simp only [splitLoop, if_neg hne] at hc
    rcases List.mem_append.1 hc with hc | hc
    · exact hchunks c hc
    · rcases List.mem_singleton.1 hc with rfl
      exact emit_chunkOK maxCS allP curG hcur hinv
  | cons p ps ih =>
    intro curG chunks hsub hcur hinv hchunks c hc
    have hpall : p ∈ allP := hsub p (List.mem_cons_self p ps)
    have hsub' : ∀ q ∈ ps, q ∈ allP := fun q hq => hsub q (List.mem_cons_of_mem p hq)
    by_cases h1 : (joinNN curG).length + p.length ≤ maxCS
    · simp only [splitLoop, if_pos h1] at hc
      rw [show joinNN curG ++ (p ++ nnSep) = joinNN (curG ++ [p]) by
        rw [joinNN_append, joinNN_singleton]] at hc
      refine ih (curG ++ [p]) chunks hsub' (by simp) ?_ hchunks c hc
      left
      rw [length_joinNN_snoc]
      omega
    · have hjne : joinNN curG ≠ [] := joinNN_ne_nil curG hcur
      simp only [splitLoop, if_neg h1, if_neg hjne] at hc
      rw [← joinNN_singleton] at hc
      refine ih [p] (chunks ++ [pyStrip (joinNN curG)]) hsub' (by simp) ?_ ?_ c hc
      · by_cases hp : p.length ≤ maxCS
        · left; rw [length_joinNN_singleton]; omega
        · right; exact ⟨p, rfl, by omega, hpall⟩
      · intro d hd
        rcases List.mem_append.1 hd with hd | hd
        · exact hchunks d hd
        · rcases List.mem_singleton.1 hd with rfl
          exact emit_chunkOK maxCS allP curG hcur hinv

/-- The first loop iteration from the empty current chunk: both branches
of the size test land in the same state. -/
theorem split_text_into_chunks_step (maxCS : Nat) (p : List Char)
    (ps : List (List Char)) :
    splitLoop maxCS (p :: ps) [] [] = splitLoop maxCS ps [] (joinNN [p]) := by
  rw [joinNN_singleton]
  by_cases h1 : ([] : List Char).length + p.length ≤ maxCS
  · simp only [splitLoop, if_pos h1, List.nil_append]
  · simp [splitLoop, if_neg h1]

theorem splitNN_ne_nil (text : List Char) : splitNN text ≠ [] := by
  induction text using splitNN.induct with
  | case1 => simp [splitNN]
  | case2 rest ih => simp [splitNN]
  | case3 c rest h ih =>
    rw [splitNN]
    · intro hcon
      have hlen := List.length_modifyHead (f := fun t => c :: t) (l := splitNN rest)
      rw [hcon] at hlen
      cases hsp : splitNN rest with
      | nil => exact ih hsp
      | cons a t => rw [hsp] at hlen; simp at hlen
    · exact h

/-! ### Claims C4 and C3 -/

/-- Claim C4: for every input text, `_split_text_into_chunks` with
`max_chunk_size = 15000` produces the chunks of a partition of the
paragraph list `text.split('\n\n')` into consecutive non-empty groups
(so no paragraph is split across two chunks and the chunks, in order,
carry all paragraphs), and every chunk is at most 15000 characters long
unless it is the (stripped) form of a single paragraph that alone
exceeds 15000 characters. -/
theorem c4_split_text_into_chunks_partition_and_bound (text : List Char) :
    ∃ groups : List (List (List Char)),
      groups.flatten = splitNN text ∧
      (∀ g ∈ groups, g ≠ []) ∧
      split_text_into_chunks 15000 text = groups.map chunkOf ∧
      ∀ c ∈ split_text_into_chunks 15000 text,
        c.length ≤ 15000 ∨
          ∃ p, p ∈ splitNN text ∧ 15000 < p.length ∧ c = pyStrip (p ++ nnSep) := by
  cases hsp : splitNN text with
  | nil => exact absurd hsp (splitNN_ne_nil text)
  | cons p ps =>
    have hstep : split_text_into_chunks 15000 text = splitLoop 15000 ps [] (joinNN [p]) := by
      unfold split_text_into_chunks
      rw [hsp, split_text_into_chunks_step]
    rcases splitLoop_partition 15000 ps [p] (by simp) with ⟨groups, _, hall, hflat, heq⟩
    have hinv : curInv 15000 (splitNN text) [p] := by
      by_cases hp : p.length ≤ 15000
      · left; rw [length_joinNN_singleton]; omega
      · right
        refine ⟨p, rfl, by omega, ?_⟩
        rw [hsp]; exact List.mem_cons_self p ps
    have hsub : ∀ q ∈ ps, q ∈ splitNN text := by
      intro q hq
      rw [hsp]; exact List.mem_cons_of_mem p hq
    refine ⟨groups, ?_, hall, ?_, ?_⟩
    · simp [hflat, hsp]
    · rw [hstep, heq]
    · intro c hc
      rw [hstep] at hc
      have hok := splitLoop_sizes 15000 (splitNN text) ps [p] [] hsub (by simp) hinv
        (by simp) c hc
      unfold chunkOK at hok
      rw [hsp] at hok
      exact hok

/-- Witness for C4 at a concrete three-paragraph input. -/
theorem c4_witness :
    ∃ groups : List (List (List Char)),
      groups.flatten = splitNN ("uno\n\ndos\n\ntres".data) ∧
      (∀ g ∈ groups, g ≠ []) ∧
      split_text_into_chunks 15000 ("uno\n\ndos\n\ntres".data) = groups.map chunkOf ∧
      ∀ c ∈ split_text_into_chunks 15000 ("uno\n\ndos\n\ntres".data),
        c.length ≤ 15000 ∨
          ∃ p, p ∈ splitNN ("uno\n\ndos\n\ntres".data) ∧ 15000 < p.length ∧
            c = pyStrip (p ++ nnSep) :=
  c4_split_text_into_chunks_partition_and_bound ("uno\n\ndos\n\ntres".data)

/-- Claim C3: under total summarizer failure (every summarization
sub-call raises), `_summarize_large_text` still returns a string of at
most 20000 characters: a failed chunk summarization falls back to the
chunk's first 1000 characters plus an ellipsis, and a combined summary
that still exceeds 20000 characters is summarized (i.e. here: truncated
by the same fallback) once more.  20000 is even sharper than the bound
"20000 plus a short fixed suffix" the claim allows. -/
theorem c3_summarize_large_text_bounded (sum : List Char → Option (List Char))
    (hfail : ∀ s, sum s = none) (text : List Char) :
    (summarize_large_text sum text).1.length ≤ 20000 := by
  have htake : ∀ c : List Char, (summarize_chunk sum c).1.length ≤ 1003 := by
    intro c
    unfold summarize_chunk
    rw [hfail c]
    simp only
    rw [List.length_append, List.length_take]
    have h3 : ("...".data).length = 3 := rfl
    rw [h3]
    have := Nat.min_le_left 1000 c.length
    omega
  simp only [summarize_large_text]
  by_cases h1 : (split_text_into_chunks 15000 text).length = 1
  · rw [if_pos h1]
    exact le_trans (htake _) (by omega)
  · rw [if_neg h1]
    by_cases h2 : 20000 <
        (List.intercalate nnSep
          ((split_text_into_chunks 15000 text).map
            (fun c => (summarize_chunk sum c).1))).length
    · rw [if_pos h2]
      exact le_trans (htake _) (by omega)
    · rw [if_neg h2]
      exact Nat.le_of_not_lt h2

/-- Witness for C3: concrete failing summarizer and concrete text. -/
theorem c3_witness :
    (summarize_large_text (fun _ => none) ("peticion de prueba".data)).1.length ≤ 20000 :=
  c3_summarize_large_text_bounded (fun _ => none) (fun _ => rfl) ("peticion de prueba".data)

/-! ### Claims C1 and C2 -/

/-- Claim C1: for every input whose stripped length is below 10
(in particular the empty string, and `None`, which the guard
`not petition_text` sends down the same branch), `classify` returns
the `Error` sentinel — `dependencia = "Error"`, `confianza = "0%"`,
rationale "The petition text is too short or empty to classify." —
and issues zero external API calls (neither the classification
completion nor any summarization call). -/
theorem c1_classify_short_circuit (compl : List Char → List Char → ApiOutcome)
    (sum : List Char → Option (List Char)) (kb : Option KBState)
    (text : List Char) (h : (pyStrip text).length < 10) :
    classify compl sum kb text = (shortErrorResult, 0) := by
  unfold classify
  rw [if_pos h]

/-- Witness for C1: the empty string and a 9-character text. -/
theorem c1_witness :
    classify (fun _ _ => ApiOutcome.apiError []) (fun _ => none) none [] =
      (shortErrorResult, 0) ∧
    classify (fun _ _ => ApiOutcome.apiError []) (fun _ => none) none
        ("  corto  ".data) = (shortErrorResult, 0) :=
  ⟨c1_classify_short_circuit _ _ _ _ (by decide),
   c1_classify_short_circuit _ _ _ _ (by decide)⟩

/-- Claim C2: for every input text and every behavior of the completion
call, `classify` returns a record in which all four fields are present
(`ClassifyResult` is total in its four fields, and `classify` is a
total function — no exception propagates): a successfully parsed
response has each missing field defaulted to `"N/A"` (empty list for
`palabras_clave`), while an unparseable payload or a raised call yields
`dependencia = "Error"`, `confianza = "0%"`. -/
theorem c2_classify_fields (compl : List Char → List Char → ApiOutcome)
    (sum : List Char → Option (List Char)) (kb : Option KBState)
    (text : List Char) :
    ((pyStrip text).length < 10 →
      classify compl sum kb text = (shortErrorResult, 0)) ∧
    (¬ (pyStrip text).length < 10 →
      (∀ p, (∀ s u, compl s u = ApiOutcome.success p) →
        (classify compl sum kb text).1 =
          ⟨p.dependencia.getD naStr, p.confianza.getD naStr,
           p.motivo.getD naStr, p.palabras_clave.getD []⟩) ∧
      (∀ m, (∀ s u, compl s u = ApiOutcome.badJson m) →
        (classify compl sum kb text).1 =
          ⟨errorStr, zeroPct, jsonErrMotivoPre ++ m, []⟩) ∧
      (∀ m, (∀ s u, compl s u = ApiOutcome.apiError m) →
        (classify compl sum kb text).1 =
          ⟨errorStr, zeroPct, classErrMotivoPre ++ m, []⟩)) := by
  constructor
  · intro h
    unfold classify
    rw [if_pos h]
  · intro h
    refine ⟨?_, ?_, ?_⟩
    · intro p hp
      unfold classify classifyCall
      rw [if_neg h, hp]
    · intro m hm
      unfold classify classifyCall
      rw [if_neg h, hm]
    · intro m hm
      unfold classify classifyCall
      rw [if_neg h, hm]

/-- Witness for C2: a 12-character text with a response missing three
of the four fields, and the same text with a raising call. -/
theorem c2_witness :
    (classify (fun _ _ => ApiOutcome.success ⟨some ("Error".data), none, none, none⟩)
        (fun _ => none) none ("peticion web".data)).1 =
      ⟨"Error".data, naStr, naStr, []⟩ ∧
    (classify (fun _ _ => ApiOutcome.apiError ("timeout".data))
        (fun _ => none) none ("peticion web".data)).1 =
      ⟨errorStr, zeroPct, classErrMotivoPre ++ "timeout".data, []⟩ :=
  ⟨((c2_classify_fields _ _ _ _).2 (by decide)).1 ⟨some ("Error".data), none, none, none⟩
      (fun _ _ => rfl),
   ((c2_classify_fields _ _ _ _).2 (by decide)).2.2 ("timeout".data) (fun _ _ => rfl)⟩

/-! ### Claims C9 and C10 -/

/-- Claim C9: when the knowledge base already holds non-empty reference
text for the hash of the uploaded bytes, a second upload of bytes with
that content hash is a no-op: it returns the success dictionary
"Document already uploaded and processed" (with the stored text's
length), performs zero text-extraction calls, and leaves the state —
reference text and dependencies metadata — unchanged. -/
theorem c9_upload_idempotent (md5 : List Nat → List Char)
    (extract : List Nat → List Char) (now : Nat) (kb : KBState)
    (pdf_bytes : List Nat) (filename description : List Char)
    (hhash : infoFileHash kb = some (md5 pdf_bytes))
    (htext : kb.reference_text ≠ []) :
    upload_dependencies_from_bytes md5 extract now kb pdf_bytes filename description =
      (UploadResult.alreadyUploaded (md5 pdf_bytes) kb.reference_text.length,
       kb, 0) := by
  unfold upload_dependencies_from_bytes
  rw [if_pos ⟨hhash, htext⟩]

/-- Witness for C9: concrete state already holding the hash. -/
theorem c9_witness :
    upload_dependencies_from_bytes (fun _ => "h1".data) (fun _ => "ignored".data) 7
        ⟨some ⟨"h1".data, "dep.pdf".data, 1, [], 300, 1⟩, "texto de referencia".data⟩
        [1, 2, 3] ("dep.pdf".data) [] =
      (UploadResult.alreadyUploaded ("h1".data) ("texto de referencia".data).length,
       ⟨some ⟨"h1".data, "dep.pdf".data, 1, [], 300, 1⟩, "texto de referencia".data⟩,
       0) :=
  c9_upload_idempotent _ _ _ _ _ _ _ (by decide) (by decide)

theorem buildSystemPrompt_of_not_available (kb : KBState)
    (h : is_available kb = false) :
    buildSystemPrompt (some kb) = systemPromptStr := by
  simp only [buildSystemPrompt]
  rw [h]
  simp

/-- Claim C10: `is_available()` holds exactly when the stored reference
text strips to strictly more than 100 characters, while an upload
succeeds whenever the extracted text strips to at least 100 characters;
hence an upload whose extracted text strips to exactly 100 characters
succeeds but leaves `is_available()` false, so `classify` builds its
system prompt without any reference-context block for it. -/
theorem c10_threshold_mismatch :
    (∀ kb : KBState,
      is_available kb = true ↔ 100 < (pyStrip kb.reference_text).length) ∧
    (∀ (md5 extract : List Nat → List Char) (now : Nat) (kb : KBState)
        (pdf_bytes : List Nat) (filename description : List Char),
      100 ≤ (pyStrip (extract pdf_bytes)).length →
      (upload_dependencies_from_bytes md5 extract now kb pdf_bytes
          filename description).1.isSuccess = true) ∧
    (∀ (md5 extract : List Nat → List Char) (now : Nat) (kb : KBState)
        (pdf_bytes : List Nat) (filename description : List Char),
      (pyStrip (extract pdf_bytes)).length = 100 →
      ¬(infoFileHash kb = some (md5 pdf_bytes) ∧ kb.reference_text ≠ []) →
      (upload_dependencies_from_bytes md5 extract now kb pdf_bytes
          filename description).1.isSuccess = true ∧
      is_available (upload_dependencies_from_bytes md5 extract now kb pdf_bytes
          filename description).2.1 = false ∧
      buildSystemPrompt (some (upload_dependencies_from_bytes md5 extract now kb
          pdf_bytes filename description).2.1) = systemPromptStr) := by
  have hnonnil : ∀ l : List Char, 100 ≤ (pyStrip l).length → l ≠ [] := by
    intro l hlen hcon
    rw [hcon] at hlen
    simp [pyStrip_nil] at hlen
  refine ⟨?_, ?_, ?_⟩
  · intro kb
    unfold is_available
    constructor
    · intro h
      exact (of_decide_eq_true h).2
    · intro h
      exact decide_eq_true ⟨hnonnil kb.reference_text (by omega), h⟩
  · intro md5 extract now kb pdf_bytes filename description hlen
    unfold upload_dependencies_from_bytes
    by_cases hal : infoFileHash kb = some (md5 pdf_bytes) ∧ kb.reference_text ≠ []
    · rw [if_pos hal]; rfl
    · rw [if_neg hal]
      have hni : ¬(extract pdf_bytes = [] ∨ (pyStrip (extract pdf_bytes)).length < 100) := by
        push_neg
        exact ⟨hnonnil _ hlen, by omega⟩
      simp only [if_neg hni]
      rfl
  · intro md5 extract now kb pdf_bytes filename description hlen hal
    have hni : ¬(extract pdf_bytes = [] ∨ (pyStrip (extract pdf_bytes)).length < 100) := by
      push_neg
      exact ⟨hnonnil _ (by omega), by omega⟩
    have hres : upload_dependencies_from_bytes md5 extract now kb pdf_bytes
        filename description =
        (UploadResult.uploaded (md5 pdf_bytes) (extract pdf_bytes).length filename,
         { dependencies_info :=
             some ⟨md5 pdf_bytes, filename, now, description, (extract pdf_bytes).length, now⟩,
           reference_text := extract pdf_bytes }, 1) := by
      unfold upload_dependencies_from_bytes
      rw [if_neg hal]
      simp only [if_neg hni]
    rw [hres]
    refine ⟨rfl, ?_, ?_⟩
    · unfold is_available
      simp only
      rw [decide_eq_false_iff_not]
      intro hcon
      rw [hlen] at hcon
      omega
    · have hav : is_available
          { dependencies_info :=
              some ⟨md5 pdf_bytes, filename, now, description, (extract pdf_bytes).length, now⟩,
            reference_text := extract pdf_bytes : KBState } = false := by
        unfold is_available
        rw [decide_eq_false_iff_not]
        intro hcon
        rw [hlen] at hcon
        omega
      exact buildSystemPrompt_of_not_available _ hav

/-- Witness for C10: an extracted text of exactly 100 non-whitespace
characters uploaded into an empty knowledge base. -/
theorem c10_witness :
    (upload_dependencies_from_bytes (fun _ => "h2".data)
        (fun _ => List.replicate 100 'a') 3 ⟨none, []⟩ [9]
        ("f.pdf".data) []).1.isSuccess = true ∧
    is_available (upload_dependencies_from_bytes (fun _ => "h2".data)
        (fun _ => List.replicate 100 'a') 3 ⟨none, []⟩ [9]
        ("f.pdf".data) []).2.1 = false ∧
    buildSystemPrompt (some (upload_dependencies_from_bytes (fun _ => "h2".data)
        (fun _ => List.replicate 100 'a') 3 ⟨none, []⟩ [9]
        ("f.pdf".data) []).2.1) = systemPromptStr :=
  c10_threshold_mismatch.2.2 (fun _ => "h2".data) (fun _ => List.replicate 100 'a')
    3 ⟨none, []⟩ [9] ("f.pdf".data) [] (by decide) (by decide)

/-! ### Claims C5-C8 -/

theorem pyRStrip_append_last_not (x : List Char) (c : Char)
    (hc : isPySpace c = false) : pyRStrip (x ++ [c]) = x ++ [c] := by
  unfold pyRStrip
  rw [List.reverse_append]
  have h1 : [c].reverse ++ x.reverse = c :: x.reverse := by simp
  rw [h1, List.dropWhile_cons, hc]
  simp

theorem pyLStrip_ne_nil_of_strip_pos (d : List Char)
    (h : 0 < (pyStrip d).length) : pyLStrip d ≠ [] := by
  intro hcon
  unfold pyStrip at h
  rw [hcon] at h
  simp [pyRStrip] at h

theorem pyStrip_append_note (d note : List Char) (c : Char)
    (hd : pyLStrip d ≠ []) (hc : isPySpace c = false) :
    pyStrip (d ++ (note ++ [c])) = pyLStrip d ++ (note ++ [c]) := by
  unfold pyStrip
  have h1 : pyLStrip (d ++ (note ++ [c])) = pyLStrip d ++ (note ++ [c]) := by
    unfold pyLStrip at hd ⊢
    exact dropWhile_append_of_ne _ _ _ hd
  rw [h1]
  rw [show pyLStrip d ++ (note ++ [c]) = (pyLStrip d ++ note) ++ [c] by
    rw [List.append_assoc]]
  rw [pyRStrip_append_last_not _ c hc]

theorem pyStrip_isPrefix_pyLStrip (d : List Char) : pyStrip d <+: pyLStrip d :=
  pyRStrip_isPrefix (pyLStrip d)

theorem classifyCall_count (compl : List Char → List Char → ApiOutcome)
    (kb : Option KBState) (pre : List Char × Nat) :
    (classifyCall compl kb pre).2 = pre.2 + 1 := by
  unfold classifyCall
  cases compl (buildSystemPrompt kb) (userMsgPre ++ pre.1) <;> rfl

theorem ocrBranch_count (d : List Char) (o : OcrOutcome) : (ocrBranch d o).2 = 1 := by
  cases o with
  | ok t => rfl
  | raise e =>
    simp only [ocrBranch]
    by_cases hz : (pyStrip d).length = 0
    · rw [if_pos hz]
    · rw [if_neg hz]

/-- Claim C5: `extract_text` runs the digital pass first; the OCR pass
is attempted exactly when the stripped digital text is shorter than 100
characters; when both candidates exist the OCR candidate is returned
only when it is strictly longer than the (unstripped) digital
candidate; and the returned string is always stripped (a fixpoint of
`strip`). -/
theorem c5_extract_text_selection (dig : PlumberOutcome) (ocr : OcrOutcome) :
    ((extract_text dig ocr).2 =
      if (pyStrip (extract_with_pdfplumber dig)).length < 100 then 1 else 0) ∧
    (∀ t, ocr = OcrOutcome.ok t →
      (pyStrip (extract_with_pdfplumber dig)).length < 100 →
      (extract_text dig ocr).1 =
        if (extract_with_pdfplumber dig).length < t.length then pyStrip t
        else pyStrip (extract_with_pdfplumber dig)) ∧
    pyStrip (extract_text dig ocr).1 = (extract_text dig ocr).1 := by
  refine ⟨?_, ?_, ?_⟩
  · unfold extract_text
    by_cases h : (pyStrip (extract_with_pdfplumber dig)).length < 100
    · rw [if_pos h, if_pos h]
      exact ocrBranch_count _ _
    · rw [if_neg h, if_neg h]
  · intro t hocr h
    subst hocr
    unfold extract_text
    rw [if_pos h]
    simp only [ocrBranch]
    by_cases hlen : (extract_with_pdfplumber dig).length < t.length
    · rw [if_pos hlen, if_pos hlen]
    · rw [if_neg hlen, if_neg hlen]
  · unfold extract_text
    by_cases h : (pyStrip (extract_with_pdfplumber dig)).length < 100
    · rw [if_pos h]
      cases ocr with
      | ok t =>
        simp only [ocrBranch]
        exact pyStrip_idem _
      | raise e =>
        simp only [ocrBranch]
        by_cases hz : (pyStrip (extract_with_pdfplumber dig)).length = 0
        · rw [if_pos hz]
          exact pyStrip_idem _
        · rw [if_neg hz]
          exact pyStrip_idem _
    · rw [if_neg h]
      exact pyStrip_idem _

/-- Witness for C5: a short digital text and a longer OCR candidate. -/
theorem c5_witness :
    (extract_text (PlumberOutcome.pages [PageOutcome.text ("hola".data)])
        (OcrOutcome.ok ("texto reconocido por OCR mucho mas largo".data))).2 = 1 ∧
    (extract_text (PlumberOutcome.pages [PageOutcome.text ("hola".data)])
        (OcrOutcome.ok ("texto reconocido por OCR mucho mas largo".data))).1 =
      pyStrip ("texto reconocido por OCR mucho mas largo".data) := by
  constructor
  · have h := (c5_extract_text_selection
        (PlumberOutcome.pages [PageOutcome.text ("hola".data)])
        (OcrOutcome.ok ("texto reconocido por OCR mucho mas largo".data))).1
    rw [h]
    decide
  · have h := (c5_extract_text_selection
        (PlumberOutcome.pages [PageOutcome.text ("hola".data)])
        (OcrOutcome.ok ("texto reconocido por OCR mucho mas largo".data))).2.1
        ("texto reconocido por OCR mucho mas largo".data) rfl (by decide)
    rw [h]
    decide

/-- Claim C6: when the digital pass strips to fewer than 100 characters
and the OCR pass raises, `extract_text` swallows the exception; with no
digital text at all it returns the fixed Spanish placeholder message,
and with some digital text it returns that text with the bracketed
"OCR no disponible" note appended — the stripped digital text surviving
as a prefix of the result, never discarded. -/
theorem c6_extract_text_ocr_unavailable (dig : PlumberOutcome) (e : List Char)
    (h : (pyStrip (extract_with_pdfplumber dig)).length < 100) :
    ((pyStrip (extract_with_pdfplumber dig)).length = 0 →
      (extract_text dig (OcrOutcome.raise e)).1 = ocrPlaceholder) ∧
    (0 < (pyStrip (extract_with_pdfplumber dig)).length →
      (extract_text dig (OcrOutcome.raise e)).1 =
        pyStrip (extract_with_pdfplumber dig ++ (ocrNotePre ++ e ++ [']'])) ∧
      pyStrip (extract_with_pdfplumber dig) <+:
        (extract_text dig (OcrOutcome.raise e)).1) := by
  constructor
  · intro hz
    unfold extract_text
    rw [if_pos h]
    simp only [ocrBranch]
    rw [if_pos hz]
    show pyStrip ocrPlaceholder = ocrPlaceholder
    decide
  · intro hpos
    have hz : ¬ (pyStrip (extract_with_pdfplumber dig)).length = 0 := by omega
    have heq1 : (extract_text dig (OcrOutcome.raise e)).1 =
        pyStrip (extract_with_pdfplumber dig ++ (ocrNotePre ++ e ++ [']'])) := by
      unfold extract_text
      rw [if_pos h]
      simp only [ocrBranch]
      rw [if_neg hz]
    refine ⟨heq1, ?_⟩
    have hd : pyLStrip (extract_with_pdfplumber dig) ≠ [] :=
      pyLStrip_ne_nil_of_strip_pos _ hpos
    have heq2 : pyStrip (extract_with_pdfplumber dig ++ (ocrNotePre ++ e ++ [']'])) =
        pyLStrip (extract_with_pdfplumber dig) ++ ((ocrNotePre ++ e) ++ [']']) := by
      rw [show ocrNotePre ++ e ++ [']'] = (ocrNotePre ++ e) ++ [']'] from rfl]
      exact pyStrip_append_note _ _ _ hd (by decide)
    rw [heq1, heq2]
    exact (pyStrip_isPrefix_pyLStrip _).trans (List.prefix_append _ _)

/-- Witness for C6: both branches at concrete inputs — a PDF with no
digital text, and one with a short partial digital text. -/
theorem c6_witness :
    (extract_text PlumberOutcome.openRaise
        (OcrOutcome.raise ("tesseract is not installed".data))).1 = ocrPlaceholder ∧
    (extract_text (PlumberOutcome.pages [PageOutcome.text ("texto parcial".data)])
        (OcrOutcome.raise ("tesseract is not installed".data))).1 =
      pyStrip (extract_with_pdfplumber
          (PlumberOutcome.pages [PageOutcome.text ("texto parcial".data)]) ++
        (ocrNotePre ++ "tesseract is not installed".data ++ [']'])) :=
  ⟨(c6_extract_text_ocr_unavailable PlumberOutcome.openRaise
      ("tesseract is not installed".data) (by decide)).1 (by decide),
   ((c6_extract_text_ocr_unavailable
      (PlumberOutcome.pages [PageOutcome.text ("texto parcial".data)])
      ("tesseract is not installed".data) (by decide)).2 (by decide)).1⟩

/-- Counterexample to C7 as stated: when the extraction library raises
on a single page, the pages after it are NOT included — here page 1
yields "a", page 2 raises, page 3 would yield "b", and the result is
"a\n" with no trace of "b". -/
theorem c7_counterexample :
    extract_with_pdfplumber (PlumberOutcome.pages
      [PageOutcome.text ("a".data), PageOutcome.raise,
       PageOutcome.text ("b".data)]) = "a\n".data ∧
    ¬ 'b' ∈ extract_with_pdfplumber (PlumberOutcome.pages
      [PageOutcome.text ("a".data), PageOutcome.raise,
       PageOutcome.text ("b".data)]) := by
  constructor
  · rfl
  · decide

/-- Amended C7: a page for which the library yields no text (`None` or
the empty string) is skipped and all remaining pages are still
processed; a page on which the library raises does not abort the whole
document — the text accumulated before it is returned and no exception
propagates — but the pages after the raising page are not processed
(whatever follows the raise is irrelevant to the result). -/
theorem c7_amended_page_failures :
    (∀ (a b : List PageOutcome) (acc : List Char),
      extractPagesLoop (a ++ PageOutcome.noText :: b) acc =
        extractPagesLoop (a ++ b) acc) ∧
    (∀ (a b : List PageOutcome) (acc : List Char),
      extractPagesLoop (a ++ PageOutcome.text [] :: b) acc =
        extractPagesLoop (a ++ b) acc) ∧
    (∀ (a b b' : List PageOutcome) (acc : List Char),
      extractPagesLoop (a ++ PageOutcome.raise :: b) acc =
        extractPagesLoop (a ++ PageOutcome.raise :: b') acc) := by
  refine ⟨?_, ?_, ?_⟩
  · intro a
    induction a with
    | nil => intro b acc; rfl
    | cons x a ih =>
      intro b acc
      cases x with
      | text t =>
        simp only [List.cons_append, extractPagesLoop]
        by_cases ht : t = []
        · rw [if_pos ht, if_pos ht]
          exact ih b acc
        · rw [if_neg ht, if_neg ht]
          exact ih b _
      | noText =>
        simp only [List.cons_append, extractPagesLoop]
        exact ih b acc
      | raise => simp [List.cons_append, extractPagesLoop]
  · intro a
    induction a with
    | nil => intro b acc; simp [extractPagesLoop]
    | cons x a ih =>
      intro b acc
      cases x with
      | text t =>
        simp only [List.cons_append, extractPagesLoop]
        by_cases ht : t = []
        · rw [if_pos ht, if_pos ht]
          exact ih b acc
        · rw [if_neg ht, if_neg ht]
          exact ih b _
      | noText =>
        simp only [List.cons_append, extractPagesLoop]
        exact ih b acc
      | raise => simp [List.cons_append, extractPagesLoop]
  · intro a
    induction a with
    | nil => intro b b' acc; rfl
    | cons x a ih =>
      intro b b' acc
      cases x with
      | text t =>
        simp only [List.cons_append, extractPagesLoop]
        by_cases ht : t = []
        · rw [if_pos ht, if_pos ht]
          exact ih b b' acc
        · rw [if_neg ht, if_neg ht]
          exact ih b b' _
      | noText =>
        simp only [List.cons_append, extractPagesLoop]
        exact ih b b' acc
      | raise => simp [List.cons_append, extractPagesLoop]

/-- Counterexample to C8 as stated: an empty byte string is not a valid
PDF container, so on the temporary file both `pdfplumber.open` and the
OCR pass raise; `extract_from_bytes` then returns the non-empty fixed
placeholder message, not the empty string, and downstream
classification of that output does not short-circuit: it issues one
external call (count 1, where the short-circuit issues 0). -/
theorem c8_counterexample :
    (extract_from_bytes PlumberOutcome.openRaise
        (OcrOutcome.raise ("OCR extraction failed".data))).1 = ocrPlaceholder ∧
    ocrPlaceholder ≠ [] ∧
    (classify (fun _ _ => ApiOutcome.apiError []) (fun _ => none) none
        ocrPlaceholder).2 = 1 := by
  refine ⟨by decide, by decide, ?_⟩
  unfold classify
  rw [if_neg (by decide : ¬ (pyStrip ocrPlaceholder).length < 10)]
  rw [classifyCall_count]
  rw [if_neg (by decide : ¬ 25000 < ocrPlaceholder.length / 4)]

/-- Amended C8: for empty byte input the digital pass yields no text
(the open call raises on an invalid PDF container) and, the OCR pass
raising as well (rasterization of an invalid PDF fails, or the engine
is absent), `extract_from_bytes` returns the fixed non-empty
placeholder message; classification of that output therefore does not
short-circuit — it issues exactly one completion call, whatever the
completion, summarizer and knowledge-base collaborators are. -/
theorem c8_amended_empty_bytes (e : List Char)
    (compl : List Char → List Char → ApiOutcome)
    (sum : List Char → Option (List Char)) (kb : Option KBState) :
    (extract_from_bytes PlumberOutcome.openRaise (OcrOutcome.raise e)).1 =
      ocrPlaceholder ∧
    ocrPlaceholder ≠ [] ∧
    (classify compl sum kb ocrPlaceholder).2 = 1 := by
  refine ⟨?_, by decide, ?_⟩
  · show (extract_text PlumberOutcome.openRaise (OcrOutcome.raise e)).1 = ocrPlaceholder
    unfold extract_text
    rw [if_pos (by decide : (pyStrip (extract_with_pdfplumber
        PlumberOutcome.openRaise)).length < 100)]
    simp only [ocrBranch]
    rw [if_pos (by decide : (pyStrip (extract_with_pdfplumber
        PlumberOutcome.openRaise)).length = 0)]
    show pyStrip ocrPlaceholder = ocrPlaceholder
    decide
  · unfold classify
    rw [if_neg (by decide : ¬ (pyStrip ocrPlaceholder).length < 10)]
    rw [classifyCall_count]
    rw [if_neg (by decide : ¬ 25000 < ocrPlaceholder.length / 4)]
